import Mathlib

/-!
# Verification of `scripts/organize_downloads.py`

A shallow embedding of the downloads-folder organizer: the pure classifier
`get_target_folder` (keyword rules first, then extension mapping, then the
`"Misc"` fallback) and the driver `organize_downloads` (enumerate, classify,
mkdir, conflict check, move with caught errors), together with theorems about
the classification and relocation behaviour.

Paths are modelled as lists of components; file names are Lean `String`s
(Python's `str.lower()` agrees with `Char.toLower` on ASCII, which is the
range the configured rules use).
-/

namespace OrganizeDownloads

/-- A filesystem path, as its list of components. -/
abbrev Path := List String

/-- `Path.home() / "Downloads"`: the environment-dependent downloads root,
fixed to a concrete abstract value for the model. -/
def DOWNLOADS_DIR : Path := ["~", "Downloads"]

/-- `CATEGORY_MAP`: the extension-to-folder mapping, in declaration order. -/
def CATEGORY_MAP : List (String × String) :=
  [("pdf", "PDFs"), ("pptx", "Presentations"), ("mp4", "Videos"),
   ("m4a", "Audio"), ("png", "Images"), ("jpg", "Images"), ("jpeg", "Images"),
   ("webp", "Images"), ("heic", "Images"), ("dmg", "Installers"),
   ("zip", "Archives"), ("rar", "Archives"), ("csv", "Data"),
   ("xlsx", "Data"), ("json", "Data"), ("srt", "Subtitles"),
   ("ics", "Calendars"), ("ipynb", "Notebooks"), ("tsx", "Code"),
   ("html", "Web"), ("txt", "Text")]

/-- `KEYWORD_FOLDERS`: the keyword-to-folder rules; a Python `dict` iterates
in declaration order, so the order of this list is the scan order. -/
def KEYWORD_FOLDERS : List (String × String) :=
  [("invoice", "Invoices"), ("receipt", "Invoices"), ("fatura", "Invoices"),
   ("anki", "Anki"), ("course", "Courses"), ("blueprint", "Courses"),
   ("ai", "AI"), ("langgraph", "AI"), ("agent", "AI"), ("prompt", "AI"),
   ("filmmaking", "Media Projects"), ("presentation", "Presentations")]

/-- `needle` occurs as a contiguous sublist of `hay`
(Python's `needle in hay` on strings). -/
def subOf (needle : List Char) : List Char → Bool
  | [] => needle.isEmpty
  | c :: t => needle.isPrefixOf (c :: t) || subOf needle t

/-- Python `hay.__contains__(needle)` for strings: substring test. -/
def strContains (hay needle : String) : Bool :=
  subOf needle.data hay.data

/-- Python `str.lower()` (ASCII range, which covers every configured rule). -/
def strLower (s : String) : String :=
  ⟨s.data.map Char.toLower⟩

/-- Index of the last `'.'` in a character list, if any
(Python `str.rfind('.')` restricted to a found result). -/
def lastDotIdx (cs : List Char) : Option Nat :=
  ((List.range cs.length).filter (fun i => cs.getD i ' ' = '.')).getLast?

/-- `pathlib.PurePath.suffix` of a base name: the part from the last dot,
provided that dot is neither the first character nor the last. -/
def pathSuffix (name : String) : String :=
  match lastDotIdx name.data with
  | some i =>
    if 0 < i ∧ i < name.data.length - 1 then ⟨name.data.drop i⟩ else ""
  | none => ""

/-- Python `s.strip(".")`: remove every leading and trailing `'.'`. -/
def stripDots (s : String) : String :=
  ⟨((s.data.dropWhile (· = '.')).reverse.dropWhile (· = '.')).reverse⟩

/-- The `for keyword, folder in KEYWORD_FOLDERS.items()` loop: the folder of
the first rule whose keyword is a substring of `lowerName`, if any. -/
def keywordLookup (rules : List (String × String)) (lowerName : String) :
    Option String :=
  match rules with
  | [] => none
  | (keyword, folder) :: rest =>
    if strContains lowerName keyword then some folder
    else keywordLookup rest lowerName

/-- The `if ext in CATEGORY_MAP: CATEGORY_MAP[ext]` dictionary lookup. -/
def extLookup (m : List (String × String)) (ext : String) : Option String :=
  match m with
  | [] => none
  | (k, v) :: rest => if k = ext then some v else extLookup rest ext

/-- `get_target_folder`: keyword rules on the lower-cased base name first;
otherwise the extension mapping on the normalized suffix; otherwise `Misc`.
The file is identified by its base name (`file.name`). -/
def get_target_folder (fileName : String) : Path :=
  let lower_name := strLower fileName
  match keywordLookup KEYWORD_FOLDERS lower_name with
  | some folder => DOWNLOADS_DIR ++ [folder]
  | none =>
    let ext := stripDots (strLower (pathSuffix fileName))
    match extLookup CATEGORY_MAP ext with
    | some folder => DOWNLOADS_DIR ++ [folder]
    | none => DOWNLOADS_DIR ++ ["Misc"]

/-! ## The mover and the run driver

The filesystem is an explicit state: an association list of regular files
(path to abstract content) plus the set of directories.  `shutil.move` is
the only operation the script lets fail per file; its possible failure is an
environment oracle `moveErr`, and a failed move leaves the filesystem
unchanged (modelled from the spec: the spec relies on `shutil.move` leaving
the source in its original location when it raises).  `DOWNLOADS_DIR.iterdir()`
is an environment value too: either a listing or an enumeration error that
the script does not catch. -/

/-- Abstract file content; distinct values model distinct file bodies. -/
abbrev Content := Nat

/-- A filesystem state: regular files with contents, and directories. -/
structure FS where
  files : List (Path × Content)
  dirs : List Path
deriving DecidableEq

/-- First-match association-list lookup by path. -/
def lookupIn : List (Path × Content) → Path → Option Content
  | [], _ => none
  | (q, c) :: t, p => if q = p then some c else lookupIn t p

/-- Content stored at `p`, if a regular file is there. -/
def FS.lookupFile (fs : FS) (p : Path) : Option Content :=
  lookupIn fs.files p

/-- `Path.exists()`: a regular file or a directory is at `p`. -/
def FS.existsPath (fs : FS) (p : Path) : Bool :=
  (fs.lookupFile p).isSome || decide (p ∈ fs.dirs)

/-- `Path.mkdir(exist_ok=True)`: create the directory if absent. -/
def FS.mkdirExistOk (fs : FS) (p : Path) : FS :=
  if p ∈ fs.dirs then fs else { fs with dirs := p :: fs.dirs }

/-- A successful `shutil.move(src, tgt)`: the file's content leaves `src`
and appears at `tgt`. -/
def FS.moveFile (fs : FS) (src tgt : Path) : FS :=
  match fs.lookupFile src with
  | some c =>
    { fs with files := (tgt, c) :: fs.files.filter (fun e => e.1 ≠ src) }
  | none => fs

/-- One entry of `DOWNLOADS_DIR.iterdir()`: a base name and whether
`is_file()` holds. -/
structure Entry where
  name : String
  isFile : Bool
deriving DecidableEq

/-- The environment of a run: the enumeration of the downloads directory
(or the uncaught enumeration error), and, per base name, whether
`shutil.move` raises and with what message. -/
structure Env where
  listing : Except String (List Entry)
  moveErr : String → Option String

/-- A console line printed by the script. `summary` is modelled from the
spec (final counts of moved / conflict / failed); the script itself never
constructs it, which the C6 theorems make precise. -/
inductive Line where
  | header (dir : Path)
  | moved (name folderName : String)
  | conflict (target : Path)
  | failed (name err : String)
  | summary (moved conflicts failed : Nat)
deriving DecidableEq

/-- Whether a line is a final counts summary. -/
def Line.isSummary : Line → Bool
  | Line.summary _ _ _ => true
  | _ => false

/-- The loop body for one directory entry: skip non-files; classify; create
the destination directory; skip on an existing target (conflict line); else
attempt the move, catching any failure into an error line. -/
def processEntry (moveErr : String → Option String) (fs : FS) (e : Entry) :
    FS × List Line :=
  if e.isFile then
    let target_folder := get_target_folder e.name
    let fs1 := fs.mkdirExistOk target_folder
    let target_path := target_folder ++ [e.name]
    if fs1.existsPath target_path then
      (fs1, [Line.conflict target_path])
    else
      match moveErr e.name with
      | some err => (fs1, [Line.failed e.name err])
      | none =>
        (fs1.moveFile (DOWNLOADS_DIR ++ [e.name]) target_path,
          [Line.moved e.name (target_folder.getLastD "")])
  else (fs, [])

/-- The `for file in DOWNLOADS_DIR.iterdir()` loop over a listing. -/
def runEntries (moveErr : String → Option String) (fs : FS) :
    List Entry → FS × List Line
  | [] => (fs, [])
  | e :: rest =>
    let r1 := processEntry moveErr fs e
    let r2 := runEntries moveErr r1.1 rest
    (r2.1, r1.2 ++ r2.2)

/-- The result of a run: final filesystem, console output, and the error of
an uncaught exception when one aborted the run. -/
structure RunResult where
  fs : FS
  output : List Line
  aborted : Option String
deriving DecidableEq

/-- `organize_downloads()`: print the header, enumerate the downloads
directory (an enumeration failure is not caught and aborts the run), and
process every entry in order. -/
def organize_downloads (env : Env) (fs : FS) : RunResult :=
  match env.listing with
  | Except.error e => ⟨fs, [Line.header DOWNLOADS_DIR], some e⟩
  | Except.ok entries =>
    let r := runEntries env.moveErr fs entries
    ⟨r.1, Line.header DOWNLOADS_DIR :: r.2, none⟩

/-! ## Concrete inputs used by witnesses and counterexamples -/

/-- A downloads entry whose target already holds a file: `invoice.pdf` is
both in the downloads directory and in `Invoices/`. -/
def entConflict : Entry := ⟨"invoice.pdf", true⟩

/-- Filesystem for the conflict scenario: the source file (content 9) and a
pre-existing file at the target (content 5). -/
def fsConflict : FS :=
  ⟨[(DOWNLOADS_DIR ++ ["Invoices", "invoice.pdf"], 5),
    (DOWNLOADS_DIR ++ ["invoice.pdf"], 9)],
   [DOWNLOADS_DIR, DOWNLOADS_DIR ++ ["Invoices"]]⟩

/-- A downloads entry whose move will fail. -/
def entFail : Entry := ⟨"report.pdf", true⟩

/-- Filesystem for the failed-move scenario: only the source file. -/
def fsFail : FS := ⟨[(DOWNLOADS_DIR ++ ["report.pdf"], 3)], [DOWNLOADS_DIR]⟩

/-- Move oracle that makes exactly `report.pdf` fail. -/
def moveErrFail : String → Option String :=
  fun n => if n = "report.pdf" then some "Permission denied" else none

/-- A batch with one failing file, one subdirectory and one healthy file. -/
def envBatch : Env :=
  ⟨Except.ok [⟨"report.pdf", true⟩, ⟨"subdir", false⟩, ⟨"notes.xyz", true⟩],
   moveErrFail⟩

/-- Filesystem for the batch scenario. -/
def fsBatch : FS :=
  ⟨[(DOWNLOADS_DIR ++ ["report.pdf"], 3), (DOWNLOADS_DIR ++ ["notes.xyz"], 4)],
   [DOWNLOADS_DIR, DOWNLOADS_DIR ++ ["subdir"]]⟩

/-- A fully successful two-file run. -/
def envRun : Env :=
  ⟨Except.ok [⟨"photo.png", true⟩, ⟨"notes.xyz", true⟩], fun _ => none⟩

/-- Filesystem for the successful run. -/
def fsRun : FS :=
  ⟨[(DOWNLOADS_DIR ++ ["photo.png"], 1), (DOWNLOADS_DIR ++ ["notes.xyz"], 2)],
   [DOWNLOADS_DIR]⟩

/-- An environment whose enumeration fails. -/
def envEnumFail : Env :=
  ⟨Except.error "No such file or directory", fun _ => none⟩

/-- Filesystem for the enumeration-failure scenario. -/
def fsEnumFail : FS := ⟨[(DOWNLOADS_DIR ++ ["a.pdf"], 7)], []⟩

/-! ## Helper lemmas about the lookup loops -/

/-- If some rule in the list matches, `keywordLookup` answers with a matching
rule's folder. -/
theorem keywordLookup_of_exists_match (rules : List (String × String))
    (lowerName : String)
    (h : ∃ kf, kf ∈ rules ∧ strContains lowerName kf.1 = true) :
    ∃ kf, kf ∈ rules ∧ strContains lowerName kf.1 = true ∧
      keywordLookup rules lowerName = some kf.2 := by
  induction rules with
  | nil => simp at h
  | cons hd tl ih =>
    by_cases hhd : strContains lowerName hd.1 = true
    · exact ⟨hd, List.mem_cons_self hd tl, hhd, by
        simp [keywordLookup, hhd]⟩
    · obtain ⟨kf, hkf, hmatch⟩ := h
      rcases List.mem_cons.mp hkf with heq | htl
      · subst heq; exact absurd hmatch hhd
      · obtain ⟨kf', hkf', hmatch', hlook'⟩ := ih ⟨kf, htl, hmatch⟩
        refine ⟨kf', List.mem_cons_of_mem hd hkf', hmatch', ?_⟩
        simp only [keywordLookup]
        rw [if_neg hhd]
        exact hlook'

/-- If the rule at position `i` matches and no earlier rule does,
`keywordLookup` answers with that rule's folder (first declared wins). -/
theorem keywordLookup_first_match (rules : List (String × String))
    (lowerName : String) (i : Nat) (hi : i < rules.length)
    (hmatch : strContains lowerName (rules.getD i ("", "")).1 = true)
    (hearlier : ∀ j, j < i →
      strContains lowerName (rules.getD j ("", "")).1 = false) :
    keywordLookup rules lowerName = some (rules.getD i ("", "")).2 := by
  induction rules generalizing i with
  | nil => simp at hi
  | cons hd tl ih =>
    cases i with
    | zero =>
      simp only [List.getD_cons_zero] at hmatch ⊢
      simp [keywordLookup, hmatch]
    | succ n =>
      have hhd : strContains lowerName hd.1 = false := by
        have := hearlier 0 (Nat.succ_pos n)
        simpa using this
      simp only [List.getD_cons_succ] at hmatch ⊢
      simp only [keywordLookup, hhd]
      rw [if_neg (by simp [hhd])]
      exact ih n (Nat.lt_of_succ_lt_succ hi) hmatch
        (fun j hj => by
          have := hearlier (j + 1) (Nat.succ_lt_succ hj)
          simpa using this)

/-- If no rule matches, `keywordLookup` returns `none`. -/
theorem keywordLookup_eq_none (rules : List (String × String))
    (lowerName : String)
    (h : ∀ kf, kf ∈ rules → strContains lowerName kf.1 = false) :
    keywordLookup rules lowerName = none := by
  induction rules with
  | nil => rfl
  | cons hd tl ih =>
    have hhd := h hd (List.mem_cons_self hd tl)
    simp only [keywordLookup]
    rw [if_neg (by simp [hhd])]
    exact ih (fun kf hkf => h kf (List.mem_cons_of_mem hd hkf))

/-- On a mapping with no duplicate keys, `extLookup` finds the stored value. -/
theorem extLookup_of_mem (m : List (String × String)) (k v : String)
    (hnodup : (m.map Prod.fst).Nodup) (hmem : (k, v) ∈ m) :
    extLookup m k = some v := by
  induction m with
  | nil => simp at hmem
  | cons hd tl ih =>
    simp only [List.map_cons, List.nodup_cons] at hnodup
    rcases List.mem_cons.mp hmem with heq | htl
    · subst heq; simp [extLookup]
    · have hne : hd.1 ≠ k := by
        intro hk
        exact hnodup.1 (hk ▸ List.mem_map.mpr ⟨(k, v), htl, rfl⟩)
      simp only [extLookup]
      rw [if_neg hne]
      exact ih hnodup.2 htl

/-- If the key is absent from the mapping, `extLookup` returns `none`. -/
theorem extLookup_eq_none (m : List (String × String)) (k : String)
    (h : ∀ p, p ∈ m → p.1 ≠ k) :
    extLookup m k = none := by
  induction m with
  | nil => rfl
  | cons hd tl ih =>
    simp only [extLookup]
    rw [if_neg (h hd (List.mem_cons_self hd tl))]
    exact ih (fun p hp => h p (List.mem_cons_of_mem hd hp))

/-! ## Substring lemmas -/

/-- The empty string is a substring of everything. -/
theorem subOf_nil_left (l : List Char) : subOf [] l = true := by
  cases l <;> simp [subOf, List.isPrefixOf]

/-- A substring of the tail is a substring of the whole list. -/
theorem subOf_cons (s : List Char) (c : Char) (t : List Char)
    (h : subOf s t = true) : subOf s (c :: t) = true := by
  simp [subOf, h]

/-- A substring of `t` is a substring of `u ++ t`. -/
theorem subOf_append_left (s u t : List Char) (h : subOf s t = true) :
    subOf s (u ++ t) = true := by
  induction u with
  | nil => simpa using h
  | cons c cs ih => simpa using subOf_cons s c (cs ++ t) ih

/-- The suffix returned by `pathSuffix` is a suffix of the base name. -/
theorem pathSuffix_data_suffix (name : String) :
    (pathSuffix name).data <:+ name.data := by
  unfold pathSuffix
  cases lastDotIdx name.data with
  | none => exact List.nil_suffix
  | some i =>
    dsimp only
    split
    · exact List.drop_suffix i name.data
    · exact List.nil_suffix

/-- A keyword occurring in the lower-cased suffix also occurs in the
lower-cased full base name. -/
theorem strContains_of_suffix_contains (name kw : String)
    (h : strContains (strLower (pathSuffix name)) kw = true) :
    strContains (strLower name) kw = true := by
  have hsuf : (pathSuffix name).data <:+ name.data := pathSuffix_data_suffix name
  obtain ⟨u, hu⟩ := hsuf
  have hmap : (u.map Char.toLower) ++ ((pathSuffix name).data.map Char.toLower)
      = name.data.map Char.toLower := by
    rw [← List.map_append, hu]
  unfold strContains strLower at h ⊢
  rw [← hmap]
  exact subOf_append_left _ _ _ h

/-! ## Classifier theorems -/

/-- C1: a file whose lower-cased name contains a configured keyword is
classified by a matching keyword rule's destination, whatever its
extension; the extension mapping is not what decides it. -/
theorem classify_keyword_over_extension (name kw folder : String)
    (hmem : (kw, folder) ∈ KEYWORD_FOLDERS)
    (hsub : strContains (strLower name) kw = true) :
    ∃ kf, kf ∈ KEYWORD_FOLDERS ∧ strContains (strLower name) kf.1 = true ∧
      get_target_folder name = DOWNLOADS_DIR ++ [kf.2] := by
  obtain ⟨kf, h1, h2, h3⟩ := keywordLookup_of_exists_match KEYWORD_FOLDERS
    (strLower name) ⟨(kw, folder), hmem, hsub⟩
  exact ⟨kf, h1, h2, by simp [get_target_folder, h3]⟩

/-- C1 witness: `invoice.png` has a `png` extension rule but is classified
by the `invoice` keyword rule. -/
theorem classify_keyword_over_extension_witness :
    (("invoice", "Invoices") ∈ KEYWORD_FOLDERS ∧
      strContains (strLower "invoice.png") "invoice" = true) ∧
    (∃ kf, kf ∈ KEYWORD_FOLDERS ∧
      strContains (strLower "invoice.png") kf.1 = true ∧
      get_target_folder "invoice.png" = DOWNLOADS_DIR ++ [kf.2]) :=
  ⟨⟨by decide, by decide⟩,
    classify_keyword_over_extension "invoice.png" "invoice" "Invoices"
      (by decide) (by decide)⟩

/-- C2: when the rule at position `i` matches the lower-cased name and no
earlier rule does, classification returns that rule's destination: the
keyword declared earliest wins. -/
theorem classify_first_declared_wins (name : String) (i : Nat)
    (hi : i < KEYWORD_FOLDERS.length)
    (hmatch : strContains (strLower name)
      (KEYWORD_FOLDERS.getD i ("", "")).1 = true)
    (hearlier : ∀ j, j < i →
      strContains (strLower name) (KEYWORD_FOLDERS.getD j ("", "")).1 = false) :
    get_target_folder name =
      DOWNLOADS_DIR ++ [(KEYWORD_FOLDERS.getD i ("", "")).2] := by
  have h := keywordLookup_first_match KEYWORD_FOLDERS (strLower name) i hi
    hmatch hearlier
  simp [get_target_folder, h]

/-- C2 witness: `my_course.pdf` matches the `course` rule (position 4) and
none of the rules declared before it, so it goes to `Courses`. -/
theorem classify_first_declared_wins_witness :
    (4 < KEYWORD_FOLDERS.length ∧
      strContains (strLower "my_course.pdf")
        (KEYWORD_FOLDERS.getD 4 ("", "")).1 = true ∧
      (∀ j, j < 4 → strContains (strLower "my_course.pdf")
        (KEYWORD_FOLDERS.getD j ("", "")).1 = false)) ∧
    get_target_folder "my_course.pdf" =
      DOWNLOADS_DIR ++ [(KEYWORD_FOLDERS.getD 4 ("", "")).2] :=
  ⟨⟨by decide, by decide, by decide⟩,
    classify_first_declared_wins "my_course.pdf" 4 (by decide) (by decide)
      (by decide)⟩

/-- C8: with no keyword match, a file whose normalized lower-cased extension
is a key of the extension mapping is classified to the mapped label. -/
theorem classify_extension_mapping (name ext label : String)
    (hnokw : ∀ kf, kf ∈ KEYWORD_FOLDERS →
      strContains (strLower name) kf.1 = false)
    (hext : ext = stripDots (strLower (pathSuffix name)))
    (hmem : (ext, label) ∈ CATEGORY_MAP) :
    get_target_folder name = DOWNLOADS_DIR ++ [label] := by
  have h1 := keywordLookup_eq_none KEYWORD_FOLDERS (strLower name) hnokw
  have hnodup : (CATEGORY_MAP.map Prod.fst).Nodup := by decide
  have h2 := extLookup_of_mem CATEGORY_MAP ext label hnodup hmem
  subst hext
  simp [get_target_folder, h1, h2]

/-- C8 witness: `photo.png` matches no keyword and its extension `png`
maps to `Images`. -/
theorem classify_extension_mapping_witness :
    ((∀ kf, kf ∈ KEYWORD_FOLDERS →
        strContains (strLower "photo.png") kf.1 = false) ∧
      "png" = stripDots (strLower (pathSuffix "photo.png")) ∧
      ("png", "Images") ∈ CATEGORY_MAP) ∧
    get_target_folder "photo.png" = DOWNLOADS_DIR ++ ["Images"] :=
  ⟨⟨by decide, by decide, by decide⟩,
    classify_extension_mapping "photo.png" "png" "Images" (by decide)
      (by decide) (by decide)⟩

/-- C9: a file matching neither a keyword nor a known extension is
classified to the fallback `Misc`. -/
theorem classify_fallback_misc (name : String)
    (hnokw : ∀ kf, kf ∈ KEYWORD_FOLDERS →
      strContains (strLower name) kf.1 = false)
    (hnoext : ∀ p, p ∈ CATEGORY_MAP →
      p.1 ≠ stripDots (strLower (pathSuffix name))) :
    get_target_folder name = DOWNLOADS_DIR ++ ["Misc"] := by
  have h1 := keywordLookup_eq_none KEYWORD_FOLDERS (strLower name) hnokw
  have h2 := extLookup_eq_none CATEGORY_MAP _ hnoext
  simp [get_target_folder, h1, h2]

/-- C9 witness: `notes.xyz` matches no keyword and `xyz` is not a key of
the extension mapping. -/
theorem classify_fallback_misc_witness :
    ((∀ kf, kf ∈ KEYWORD_FOLDERS →
        strContains (strLower "notes.xyz") kf.1 = false) ∧
      (∀ p, p ∈ CATEGORY_MAP →
        p.1 ≠ stripDots (strLower (pathSuffix "notes.xyz")))) ∧
    get_target_folder "notes.xyz" = DOWNLOADS_DIR ++ ["Misc"] :=
  ⟨⟨by decide, by decide⟩,
    classify_fallback_misc "notes.xyz" (by decide) (by decide)⟩

/-- C10: keyword matching runs over the whole lower-cased base name,
extension included: a keyword occurring only inside the suffix still
selects a keyword rule's folder. -/
theorem classify_keyword_in_extension (name kw folder : String)
    (hmem : (kw, folder) ∈ KEYWORD_FOLDERS)
    (hsub : strContains (strLower (pathSuffix name)) kw = true) :
    ∃ kf, kf ∈ KEYWORD_FOLDERS ∧ strContains (strLower name) kf.1 = true ∧
      get_target_folder name = DOWNLOADS_DIR ++ [kf.2] := by
  have hname := strContains_of_suffix_contains name kw hsub
  obtain ⟨kf, h1, h2, h3⟩ := keywordLookup_of_exists_match KEYWORD_FOLDERS
    (strLower name) ⟨(kw, folder), hmem, hname⟩
  exact ⟨kf, h1, h2, by simp [get_target_folder, h3]⟩

/-- C10 witness: `notes.ai` contains the keyword `ai` only inside its
extension and is classified to `AI`, not by an extension rule. -/
theorem classify_keyword_in_extension_witness :
    (("ai", "AI") ∈ KEYWORD_FOLDERS ∧
      strContains (strLower (pathSuffix "notes.ai")) "ai" = true) ∧
    (∃ kf, kf ∈ KEYWORD_FOLDERS ∧
      strContains (strLower "notes.ai") kf.1 = true ∧
      get_target_folder "notes.ai" = DOWNLOADS_DIR ++ [kf.2]) ∧
    get_target_folder "notes.ai" = DOWNLOADS_DIR ++ ["AI"] :=
  ⟨⟨by decide, by decide⟩,
    classify_keyword_in_extension "notes.ai" "ai" "AI" (by decide) (by decide),
    by decide⟩

/-! ## Helper lemmas about the mover -/

/-- Creating a directory changes no regular file. -/
theorem FS.mkdirExistOk_files (fs : FS) (p : Path) :
    (fs.mkdirExistOk p).files = fs.files := by
  unfold FS.mkdirExistOk
  split <;> rfl

/-- Creating the destination directory does not make the target path
(a strictly longer path) come into existence. -/
theorem FS.existsPath_mkdirExistOk_append (fs : FS) (d : Path) (n : String) :
    (fs.mkdirExistOk d).existsPath (d ++ [n]) = fs.existsPath (d ++ [n]) := by
  unfold FS.mkdirExistOk FS.existsPath FS.lookupFile
  split
  · rfl
  · have hne : d ++ [n] ≠ d := by
      intro h
      have hlen := congrArg List.length h
      simp at hlen
    simp [List.mem_cons, hne]

/-- One entry produces one outcome line if it is a regular file,
none otherwise. -/
theorem processEntry_output_length (moveErr : String → Option String)
    (fs : FS) (e : Entry) :
    (processEntry moveErr fs e).2.length = if e.isFile then 1 else 0 := by
  unfold processEntry
  by_cases h : e.isFile = true
  · simp only [h, if_true]
    split
    · rfl
    · split <;> rfl
  · simp [h]

/-- No entry ever produces a counts-summary line. -/
theorem processEntry_no_summary (moveErr : String → Option String)
    (fs : FS) (e : Entry) :
    (processEntry moveErr fs e).2.any Line.isSummary = false := by
  unfold processEntry
  by_cases h : e.isFile = true
  · simp only [h, if_true]
    split
    · rfl
    · split <;> rfl
  · simp [h]

/-- The loop emits exactly one outcome line per regular-file entry. -/
theorem runEntries_output_length (moveErr : String → Option String)
    (fs : FS) (entries : List Entry) :
    (runEntries moveErr fs entries).2.length
      = (entries.filter (fun e => e.isFile)).length := by
  induction entries generalizing fs with
  | nil => rfl
  | cons e rest ih =>
    simp only [runEntries, List.length_append, List.filter_cons]
    rw [processEntry_output_length, ih]
    by_cases h : e.isFile = true <;> simp [h, Nat.add_comm]

/-- The loop never emits a counts-summary line. -/
theorem runEntries_no_summary (moveErr : String → Option String)
    (fs : FS) (entries : List Entry) :
    (runEntries moveErr fs entries).2.any Line.isSummary = false := by
  induction entries generalizing fs with
  | nil => rfl
  | cons e rest ih =>
    simp only [runEntries, List.any_append]
    rw [processEntry_no_summary, ih]
    rfl

/-! ## Mover and driver theorems -/

/-- C3: when the target path already holds a file, the move is skipped:
the pre-existing file keeps its content, no regular file anywhere changes
(so the source is untouched), and a conflict line naming the existing
path is the reported outcome. -/
theorem relocate_conflict_preserves (moveErr : String → Option String)
    (fs : FS) (e : Entry) (c : Content)
    (hfile : e.isFile = true)
    (hexists : fs.lookupFile (get_target_folder e.name ++ [e.name]) = some c) :
    (processEntry moveErr fs e).1.lookupFile
        (get_target_folder e.name ++ [e.name]) = some c ∧
    (processEntry moveErr fs e).1.files = fs.files ∧
    (processEntry moveErr fs e).2 =
      [Line.conflict (get_target_folder e.name ++ [e.name])] := by
  have hfiles : (fs.mkdirExistOk (get_target_folder e.name)).files = fs.files :=
    FS.mkdirExistOk_files fs _
  have hlook : (fs.mkdirExistOk (get_target_folder e.name)).lookupFile
      (get_target_folder e.name ++ [e.name]) = some c := by
    unfold FS.lookupFile
    rw [hfiles]
    exact hexists
  have hex : (fs.mkdirExistOk (get_target_folder e.name)).existsPath
      (get_target_folder e.name ++ [e.name]) = true := by
    unfold FS.existsPath
    rw [hlook]
    rfl
  refine ⟨?_, ?_, ?_⟩ <;> simp [processEntry, hfile, hex, hlook, hfiles]

/-- C3 witness: `invoice.pdf` already present in `Invoices/` is skipped and
left intact. -/
theorem relocate_conflict_preserves_witness :
    (entConflict.isFile = true ∧
      fsConflict.lookupFile
        (get_target_folder entConflict.name ++ [entConflict.name]) = some 5) ∧
    ((processEntry (fun _ => none) fsConflict entConflict).1.lookupFile
        (get_target_folder entConflict.name ++ [entConflict.name]) = some 5 ∧
      (processEntry (fun _ => none) fsConflict entConflict).1.files
        = fsConflict.files ∧
      (processEntry (fun _ => none) fsConflict entConflict).2 =
        [Line.conflict
          (get_target_folder entConflict.name ++ [entConflict.name])]) :=
  ⟨⟨by decide, by decide⟩,
    relocate_conflict_preserves (fun _ => none) fsConflict entConflict 5
      (by decide) (by decide)⟩

/-- C4: when the move itself fails, the run reports a failed outcome
carrying the error detail, and no regular file anywhere changes: the
source is still in its original place and there is no partial state. -/
theorem relocate_failure_preserves (moveErr : String → Option String)
    (fs : FS) (e : Entry) (err : String)
    (hfile : e.isFile = true)
    (hnoconf : fs.existsPath (get_target_folder e.name ++ [e.name]) = false)
    (hfail : moveErr e.name = some err) :
    (processEntry moveErr fs e).1.files = fs.files ∧
    (processEntry moveErr fs e).2 = [Line.failed e.name err] := by
  have hex : (fs.mkdirExistOk (get_target_folder e.name)).existsPath
      (get_target_folder e.name ++ [e.name]) = false := by
    rw [FS.existsPath_mkdirExistOk_append]
    exact hnoconf
  refine ⟨?_, ?_⟩ <;>
    simp [processEntry, hfile, hex, hfail, FS.mkdirExistOk_files]

/-- C4 witness: a permission error moving `report.pdf` leaves every file in
place and reports the error detail. -/
theorem relocate_failure_preserves_witness :
    (entFail.isFile = true ∧
      fsFail.existsPath (get_target_folder entFail.name ++ [entFail.name])
        = false ∧
      moveErrFail entFail.name = some "Permission denied") ∧
    ((processEntry moveErrFail fsFail entFail).1.files = fsFail.files ∧
      (processEntry moveErrFail fsFail entFail).2 =
        [Line.failed entFail.name "Permission denied"]) :=
  ⟨⟨by decide, by decide, by decide⟩,
    relocate_failure_preserves moveErrFail fsFail entFail "Permission denied"
      (by decide) (by decide) (by decide)⟩

/-- C5: per-file errors never abort the batch: whenever enumeration
succeeds, the run terminates normally (no uncaught exception) and every
regular-file entry yields exactly one outcome record, whatever the
conflicts and move failures. -/
theorem organize_never_aborts_per_file (env : Env) (fs : FS)
    (entries : List Entry) (h : env.listing = Except.ok entries) :
    (organize_downloads env fs).aborted = none ∧
    (organize_downloads env fs).output.length
      = (entries.filter (fun e => e.isFile)).length + 1 := by
  unfold organize_downloads
  rw [h]
  exact ⟨rfl, by simp [runEntries_output_length]⟩

/-- C5 witness: a batch in which `report.pdf` fails to move still processes
`notes.xyz` and ends with one record per file. -/
theorem organize_never_aborts_per_file_witness :
    (envBatch.listing = Except.ok
      [⟨"report.pdf", true⟩, ⟨"subdir", false⟩, ⟨"notes.xyz", true⟩]) ∧
    ((organize_downloads envBatch fsBatch).aborted = none ∧
      (organize_downloads envBatch fsBatch).output.length
        = (([⟨"report.pdf", true⟩, ⟨"subdir", false⟩, ⟨"notes.xyz", true⟩] :
            List Entry).filter (fun e => e.isFile)).length + 1) :=
  ⟨rfl, organize_never_aborts_per_file envBatch fsBatch _ rfl⟩

/-- C6 counterexample: a concrete successful run prints the header and the
per-file lines only — no line carrying moved / conflict / failed counts
exists in the output. -/
theorem organize_no_summary_counterexample :
    (organize_downloads envRun fsRun).output =
      [Line.header DOWNLOADS_DIR, Line.moved "photo.png" "Images",
        Line.moved "notes.xyz" "Misc"] ∧
    (organize_downloads envRun fsRun).output.any Line.isSummary = false := by
  exact ⟨by decide, by decide⟩

/-- C6 amended: every run whose enumeration succeeds produces the header
plus exactly one outcome line per regular file, and never emits a summary
of moved / skipped-conflict / failed counts. -/
theorem organize_outcome_lines_no_summary (env : Env) (fs : FS)
    (entries : List Entry) (h : env.listing = Except.ok entries) :
    (organize_downloads env fs).output.length
      = (entries.filter (fun e => e.isFile)).length + 1 ∧
    (organize_downloads env fs).output.any Line.isSummary = false := by
  unfold organize_downloads
  rw [h]
  constructor
  · simp [runEntries_output_length]
  · simp [Line.isSummary, runEntries_no_summary]

/-- C6 amended witness: the successful two-file run has three lines and no
summary among them. -/
theorem organize_outcome_lines_no_summary_witness :
    (envRun.listing = Except.ok
      [⟨"photo.png", true⟩, ⟨"notes.xyz", true⟩]) ∧
    ((organize_downloads envRun fsRun).output.length
        = (([⟨"photo.png", true⟩, ⟨"notes.xyz", true⟩] :
            List Entry).filter (fun e => e.isFile)).length + 1 ∧
      (organize_downloads envRun fsRun).output.any Line.isSummary = false) :=
  ⟨rfl, organize_outcome_lines_no_summary envRun fsRun _ rfl⟩

/-- C7: when the enumeration of the source root fails, the run aborts with
that error, the filesystem is untouched, and no per-file line (no
classification, no move) was produced — only the header. -/
theorem organize_aborts_on_enumeration_failure (env : Env) (fs : FS)
    (err : String) (h : env.listing = Except.error err) :
    (organize_downloads env fs).aborted = some err ∧
    (organize_downloads env fs).fs = fs ∧
    (organize_downloads env fs).output = [Line.header DOWNLOADS_DIR] := by
  unfold organize_downloads
  rw [h]
  exact ⟨rfl, rfl, rfl⟩

/-- C7 witness: an unreadable downloads directory aborts the run before any
file is touched. -/
theorem organize_aborts_on_enumeration_failure_witness :
    (envEnumFail.listing = Except.error "No such file or directory") ∧
    ((organize_downloads envEnumFail fsEnumFail).aborted
        = some "No such file or directory" ∧
      (organize_downloads envEnumFail fsEnumFail).fs = fsEnumFail ∧
      (organize_downloads envEnumFail fsEnumFail).output
        = [Line.header DOWNLOADS_DIR]) :=
  ⟨rfl, organize_aborts_on_enumeration_failure envEnumFail fsEnumFail _ rfl⟩

end OrganizeDownloads
